import Mathlib

/-!
Verification of the active-object core of the QP/C++ framework slice:
event deferral/recall (qf/source/qa_defer.cpp) and the Win32 port's
lifecycle, startup gate, run loop and tick configuration
(ports/win32/qf_port.cpp).

Events are identified by natural-number ids; their immutable attributes
(signal, pool id) live in an `evts` table and the mutable reference
counts in a `refCtr` table, so that one event held by several queues has
one shared count, as in the C++ code where queues hold `QEvt` pointers.
-/

namespace QP

/-- An event's immutable attributes: signal number and pool id
(`poolId = 0` means statically allocated, not reference counted). -/
structure Evt where
  sig : Nat
  poolId : Nat
deriving DecidableEq, Repr

/-- A bounded event queue: the list of held event ids (head of the list
is the front of the queue) and the capacity bound. -/
structure EQueue where
  items : List Nat
  cap : Nat
deriving DecidableEq, Repr

/-- The state an active object's defer/recall protocol acts on: the
event table, the shared reference counts, the object's own inbox and
one side (deferral) queue. -/
structure AOState where
  evts : Nat → Evt
  refCtr : Nat → Nat
  inbox : EQueue
  side : EQueue

/-- Modelled from the spec: the reference-count increment performed at a
hand-off point (`QF_EVT_REF_CTR_INC_`, not part of the source slice); an
event with `poolId = 0` is never reference counted (data-model invariant),
a pooled event's count goes up by one. -/
def refInc (s : AOState) (e : Nat) : AOState :=
  if (s.evts e).poolId ≠ 0 then
    { s with refCtr := Function.update s.refCtr e (s.refCtr e + 1) }
  else s

/-- Modelled from the spec: the reference-count decrement
(`QF_EVT_REF_CTR_DEC_`, not part of the source slice). -/
def refDec (s : AOState) (e : Nat) : AOState :=
  { s with refCtr := Function.update s.refCtr e (s.refCtr e - 1) }

/-- Modelled from the spec: `QEQueue::post` (not part of the source
slice) — inserts at the tail when the queue has room and at least
`margin` free slots are available, otherwise fails with no insert and no
reference-count change; a successful post increments a pooled event's
reference count. The margin convention is resolved so that the spec's
capacity-1 side-queue scenario is expressible: `margin` free slots must
be available for the post to proceed. -/
def sideQueuePost (s : AOState) (e : Nat) (margin : Nat) : Bool × AOState :=
  if s.side.items.length < s.side.cap ∧ s.side.items.length + margin ≤ s.side.cap then
    (true, refInc { s with side := { s.side with items := s.side.items ++ [e] } } e)
  else
    (false, s)

/-- Modelled from the spec: `QEQueue::get` in raw non-blocking mode (not
part of the source slice) — dequeues from the head, returns the "no
event" marker when empty, and does NOT change the reference count. -/
def sideQueueGet (s : AOState) : Option Nat × AOState :=
  match s.side.items with
  | [] => (none, s)
  | e :: rest => (some e, { s with side := { s.side with items := rest } })

/-- Modelled from the spec: `QActive::postLIFO` (not part of the source
slice) — inserts at the head of the object's own inbox, never subject to
the margin check; a successful post increments a pooled event's
reference count. -/
def QActive.postLIFO (s : AOState) (e : Nat) : AOState :=
  refInc { s with inbox := { s.inbox with items := e :: s.inbox.items } } e

/-- Modelled from the spec: an ordinary FIFO `post` into the object's
inbox (not part of the source slice) — inserts at the tail when room and
margin allow, incrementing a pooled event's reference count; fails with
no mutation otherwise. -/
def QActive.post (s : AOState) (e : Nat) (margin : Nat) : Bool × AOState :=
  if s.inbox.items.length < s.inbox.cap ∧ s.inbox.items.length + margin ≤ s.inbox.cap then
    (true, refInc { s with inbox := { s.inbox with items := s.inbox.items ++ [e] } } e)
  else
    (false, s)

/-- `QActive::defer` (qa_defer.cpp line 70): post the event to the side
queue with the non-asserting post variant (margin 1). -/
def QActive.defer (s : AOState) (e : Nat) : Bool × AOState :=
  sideQueuePost s e 1

/-- `QActive::recall` (qa_defer.cpp lines 92-118): try to get an event
from the side queue; if none, return false with no effect. Otherwise
post it LIFO to the object's own inbox, then, in the critical section,
for a pooled event assert (id 210) that the reference count is strictly
greater than 1 and decrement it once; return true. An assertion failure
is a process abort, modelled as `Except.error` with the assertion id. -/
def QActive.recall (s : AOState) : Except Nat (Bool × AOState) :=
  match sideQueueGet s with
  | (none, s1) => .ok (false, s1)
  | (some e, s1) =>
    let s2 := QActive.postLIFO s1 e
    if (s2.evts e).poolId ≠ 0 then
      if s2.refCtr e > 1 then
        .ok (true, refDec s2 e)
      else
        .error 210
    else
      .ok (true, s2)

end QP

namespace QP

/-- State used by the counterexample to claim C1: a pooled event 7
already sits in the side queue, which still has free room. -/
def cexS : AOState :=
  { evts := fun _ => ⟨0, 1⟩, refCtr := fun _ => 1,
    inbox := ⟨[], 4⟩, side := ⟨[7], 4⟩ }

/-- State witnessing the amended claim C1: an empty side queue. -/
def wS1 : AOState :=
  { evts := fun _ => ⟨0, 1⟩, refCtr := fun _ => 1,
    inbox := ⟨[], 4⟩, side := ⟨[], 2⟩ }

/-- State witnessing claim C2: a pooled event 3 with reference count 2
waiting in the side queue. -/
def wS2 : AOState :=
  { evts := fun _ => ⟨0, 1⟩, refCtr := fun _ => 2,
    inbox := ⟨[], 4⟩, side := ⟨[3], 4⟩ }

/-- State witnessing claim C6: an empty side queue. -/
def emptyS : AOState :=
  { evts := fun _ => ⟨0, 1⟩, refCtr := fun _ => 1,
    inbox := ⟨[], 2⟩, side := ⟨[], 2⟩ }

end QP

namespace QP

/-! ### Win32 port: startup gate (qf_port.cpp, QF::init / QF::thread_ / QF::run)

The gate is the `l_startupCritSect` critical section: `QF::init`
initializes and enters it, every active-object thread starts by entering
and leaving it, and `QF::run` leaves it once to unblock those threads.
The interleaving of the main thread and one active-object thread is
modelled as a scheduling-choice semantics over the two threads'
instruction lists. -/

/-- The atomic actions of the main thread (`QF::run`) and of an
active-object thread (`QF::thread_`), in the port's source order. -/
inductive TAct
  | mainStartup
  | mainRelease
  | mainSetRunning
  | aoAcquire
  | aoRelease
  | aoGet
  | aoDispatch
  | aoGc
deriving DecidableEq, Repr

/-- `QF::run` up to its tick loop: `onStartup()`, leave the startup
critical section, set the running flag (qf_port.cpp lines 118-125). -/
def mainProg : List TAct :=
  [TAct.mainStartup, TAct.mainRelease, TAct.mainSetRunning]

/-- `QF::thread_` up to the first iteration of its event loop: enter and
leave the startup critical section, then get, dispatch and collect the
first event (qf_port.cpp lines 94-105). -/
def aoProg : List TAct :=
  [TAct.aoAcquire, TAct.aoRelease, TAct.aoGet, TAct.aoDispatch, TAct.aoGc]

/-- Interleaving state: whether the startup gate is currently owned, the
remaining programs of the two threads, and the executed actions, newest
first. -/
structure GateSys where
  gate : Bool
  main : List TAct
  ao : List TAct
  trace : List TAct
deriving DecidableEq, Repr

/-- The state right after `QF::init` (qf_port.cpp lines 64-80): the gate
critical section is initialized and ENTERED by the main thread, the
active object was started before `QF::run`, nothing has executed yet. -/
def initSys : GateSys :=
  { gate := true, main := mainProg, ao := aoProg, trace := [] }

/-- One scheduling step: `who = true` runs the main thread's next
instruction, `who = false` the active-object thread's. An `aoAcquire`
while the gate is owned blocks (no step), as `EnterCriticalSection`
does; `mainRelease` and `aoRelease` model `LeaveCriticalSection`. -/
def gstep (s : GateSys) (who : Bool) : Option GateSys :=
  if who then
    match s.main with
    | [] => none
    | a :: rest =>
      some { s with main := rest,
                    gate := if a = TAct.mainRelease then false else s.gate,
                    trace := a :: s.trace }
  else
    match s.ao with
    | [] => none
    | a :: rest =>
      if a = TAct.aoAcquire then
        if s.gate then
          none
        else
          some { s with ao := rest, gate := true, trace := a :: s.trace }
      else if a = TAct.aoRelease then
        some { s with ao := rest, gate := false, trace := a :: s.trace }
      else
        some { s with ao := rest, trace := a :: s.trace }

/-- Run a list of scheduling choices; a blocked or finished thread's
turn is a no-op (the scheduler picks again). -/
def gexec : GateSys → List Bool → GateSys
  | s, [] => s
  | s, w :: ws =>
    match gstep s w with
    | none => gexec s ws
    | some t => gexec t ws

/-- Invariant of the startup-gate interleaving: the main thread's
remaining program is a suffix of `mainProg`; either the gate is still
owned by the main thread and the active-object thread has not moved, or
the release has already been executed; and every dequeue in the trace
happened after the release (the trace is newest-first, so "after" means
the release lies in the older tail). -/
def GateInv (s : GateSys) : Prop :=
  s.main <:+ mainProg ∧
  ((s.gate = true ∧ s.ao = aoProg) ∨ TAct.mainRelease ∈ s.trace) ∧
  (∀ pre post, s.trace = pre ++ TAct.aoGet :: post → TAct.mainRelease ∈ post)

/-! ### Win32 port: active-object run loop and stop (QF::thread_ / QActive::stop) -/

/-- The phases of `QF::thread_`'s event loop and shutdown path
(qf_port.cpp lines 100-110): the do-while body `get_; dispatch; gc`,
the loop condition on `m_thread`, then `unsubscribeAll`, `QF::remove_`
and `CloseHandle`. -/
inductive RPhase
  | getEvt
  | dispatchEvt
  | collectEvt
  | checkFlag
  | unsubAll
  | removeAO
  | closeHandle
  | done
deriving DecidableEq, Repr

/-- One step of the run loop, given the current value of the running
flag (`m_thread != NULL`); the flag is consulted only in the
`checkFlag` phase. -/
def runStep (running : Bool) : RPhase → RPhase
  | RPhase.getEvt => RPhase.dispatchEvt
  | RPhase.dispatchEvt => RPhase.collectEvt
  | RPhase.collectEvt => RPhase.checkFlag
  | RPhase.checkFlag => if running then RPhase.getEvt else RPhase.unsubAll
  | RPhase.unsubAll => RPhase.removeAO
  | RPhase.removeAO => RPhase.closeHandle
  | RPhase.closeHandle => RPhase.done
  | RPhase.done => RPhase.done

/-- The run loop's trajectory under an arbitrary (adversarial) history
of the running flag: `flags n` is the flag's value when the thread takes
its step number `n`; another thread's `stop()` may clear it at any
point. -/
def runTraj (flags : Nat → Bool) : Nat → RPhase
  | 0 => RPhase.getEvt
  | n + 1 => runStep (flags n) (runTraj flags n)

/-- An active object's fields touched by the Win32 port's lifecycle:
priority, thread handle (`none` = cleared), OS object and inbox. -/
structure QActiveRec where
  prio : Nat
  thread : Option Nat
  osObject : Nat
  inbox : EQueue
deriving DecidableEq, Repr

/-- `QActive::stop` (qf_port.cpp lines 226-228): clear the thread
handle, which is the run loop's running flag; nothing else. -/
def QActive.stop (a : QActiveRec) : QActiveRec :=
  { a with thread := none }

/-! ### Win32 port: QActive::start and QF_setTickRate -/

/-- Modelled from the spec: the port's maximum active-object priority
`QF_MAX_ACTIVE`; the constant is defined in the port header, which is
not part of the source slice. Its exact value does not matter to any
claim, only that priorities range over `[1, QF_MAX_ACTIVE]`. -/
def QF_MAX_ACTIVE : Nat := 63

/-- The observable steps `QActive::start` performs, in order. -/
inductive StartAct
  | initQueue (len : Nat)
  | setPrio (p : Nat)
  | registerAO
  | createOsEvent
  | initialTrans (ie : Option Nat)
  | createThread (stk : Nat)
  | setThreadPrio (p : Int)
deriving DecidableEq, Repr

/-- The outcome of a successful `QActive::start`. -/
structure StartOut where
  prio : Nat
  stkSizeUsed : Nat
  win32Prio : Int
  trace : List StartAct
deriving DecidableEq, Repr

/-- `QActive::start` (qf_port.cpp lines 185-224). `Q_REQUIRE_ID(700)`
demands a priority in `[1, QF_MAX_ACTIVE]` and NO caller-supplied stack
storage; then the inbox is initialized, the priority recorded, the
object registered (`QF::add_`), the saved Win32 priority read out of
`m_osObject` (0 = `THREAD_PRIORITY_NORMAL`), the throttle event created,
the initial transition run, the stack size defaulted to 1024 when 0, and
the thread created — `Q_ASSERT_ID(730)` aborts if creation fails, which
the `threadOk` oracle models. A nonzero Win32 priority is then applied.
Assertion aborts are `Except.error` with the assertion id. -/
def QActive.start (prio : Nat) (qLen : Nat) (stkSto : Option Nat)
    (stkSize : Nat) (ie : Option Nat) (osObject : Option Int)
    (threadOk : Bool) : Except Nat StartOut :=
  if ¬(0 < prio ∧ prio ≤ QF_MAX_ACTIVE ∧ stkSto = none) then
    .error 700
  else
    let win32Prio : Int :=
      match osObject with
      | some p => p
      | none => 0
    let stk : Nat := if stkSize = 0 then 1024 else stkSize
    if ¬threadOk then
      .error 730
    else
      .ok { prio := prio, stkSizeUsed := stk, win32Prio := win32Prio,
            trace := [StartAct.initQueue qLen, StartAct.setPrio prio,
                      StartAct.registerAO, StartAct.createOsEvent,
                      StartAct.initialTrans ie, StartAct.createThread stk] ++
                     (if win32Prio ≠ 0 then [StartAct.setThreadPrio win32Prio]
                      else []) }

/-- The port's tick configuration: `l_tickMsec` and `l_tickPrio`
(qf_port.cpp lines 59-60). -/
structure TickConfig where
  tickMsec : Nat
  tickPrio : Int
deriving DecidableEq, Repr

/-- `QF_setTickRate` (qf_port.cpp lines 151-155): `Q_REQUIRE_ID(600)`
rejects a zero tick rate before anything is changed; otherwise the
ticker sleep period becomes `1000 / ticksPerSec` (integer division) and
the ticker priority hint is recorded. -/
def QF_setTickRate (ticksPerSec : Nat) (tickPrio : Int) :
    Except Nat TickConfig :=
  if ticksPerSec = 0 then
    .error 600
  else
    .ok { tickMsec := 1000 / ticksPerSec, tickPrio := tickPrio }

end QP

namespace QP

/-! ## Theorems -/

/-- Claim C1 (counterexample): with a pooled event 7 already in the side
queue (which has free room), `defer(q, 5)` followed by `recall(q)`
succeeds but re-posts 7, not 5, to the inbox: the recalled event is the
side queue's head, so the claim's universal round-trip fails on a
non-empty side queue. -/
theorem defer_recall_nonempty_cex :
    cexS.side.items.length < cexS.side.cap ∧
    (QActive.defer cexS 5).1 = true ∧
    (QActive.recall (QActive.defer cexS 5).2).map
        (fun p => (p.1, p.2.inbox.items)) = .ok (true, [7]) ∧
    (QActive.recall (QActive.defer cexS 5).2).map
        (fun p => (p.1, p.2.inbox.items)) ≠ .ok (true, [5]) := by
  have h3 : (QActive.recall (QActive.defer cexS 5).2).map
      (fun p => (p.1, p.2.inbox.items)) = .ok (true, [7]) := rfl
  refine ⟨by decide, by decide, h3, ?_⟩
  rw [h3]
  intro hcontra
  simp at hcontra

/-- Claim C1 (amended): for an EMPTY side queue with at least one free
slot, and an inbox with room for an ordinary post, `defer(q, e)`
followed by `recall(q)` succeeds, leaves `e` at the front of the inbox
ahead of everything pending, empties the side queue, and leaves `e`'s
reference count exactly as a single ordinary successful post of `e`
would have: the increment on entering the side queue is cancelled by
recall's single decrement for a pooled event. -/
theorem defer_recall_roundtrip (s : AOState) (e : Nat)
    (hempty : s.side.items = []) (hcap : 0 < s.side.cap)
    (hin : s.inbox.items.length < s.inbox.cap) :
    (QActive.defer s e).1 = true ∧
    (QActive.post s e 0).1 = true ∧
    ∃ s2, QActive.recall (QActive.defer s e).2 = .ok (true, s2) ∧
      s2.inbox.items = e :: s.inbox.items ∧
      s2.side.items = [] ∧
      s2.refCtr e = ((QActive.post s e 0).2).refCtr e := by
  have hd : QActive.defer s e =
      (true, refInc { s with side := { s.side with items := [e] } } e) := by
    unfold QActive.defer sideQueuePost
    rw [hempty]
    rw [if_pos (by constructor <;> simpa using hcap)]
    simp [hempty]
  have hpost : QActive.post s e 0 =
      (true, refInc { s with inbox :=
        { s.inbox with items := s.inbox.items ++ [e] } } e) := by
    unfold QActive.post
    rw [if_pos ⟨hin, by omega⟩]
  rw [hd, hpost]
  refine ⟨rfl, rfl, ?_⟩
  by_cases hp : (s.evts e).poolId ≠ 0
  · simp only [refInc, hp, if_pos, ne_eq, not_false_iff, if_true]
    simp only [QActive.recall, sideQueueGet, QActive.postLIFO, refInc, refDec]
    simp only [hp, ne_eq, not_false_iff, if_true, Function.update_same]
    rw [if_pos (by omega)]
    refine ⟨_, rfl, rfl, rfl, ?_⟩
    simp [Function.update_same]
  · simp only [refInc, hp, ite_false]
    simp only [QActive.recall, sideQueueGet, QActive.postLIFO, refInc, refDec]
    simp only [hp, ite_false]
    exact ⟨_, rfl, rfl, rfl, rfl⟩

/-- Claim C1 (witness): the amended round trip evaluated on `wS1` with
event 9. -/
theorem defer_recall_roundtrip_witness :
    (QActive.defer wS1 9).1 = true ∧
    (QActive.post wS1 9 0).1 = true ∧
    ∃ s2, QActive.recall (QActive.defer wS1 9).2 = .ok (true, s2) ∧
      s2.inbox.items = 9 :: wS1.inbox.items ∧
      s2.side.items = [] ∧
      s2.refCtr 9 = ((QActive.post wS1 9 0).2).refCtr 9 :=
  defer_recall_roundtrip wS1 9 rfl (by decide) (by decide)

/-- Claim C2: on a non-empty side queue, `recall` dequeues the head
event `e` and posts it LIFO to the object's own inbox; then, for a
pooled event, it asserts (id 210) that the reference count — which the
LIFO re-post raised to `refCtr e + 1` — is strictly greater than 1 and
decrements it exactly once, so the count returns to its prior value and
no other event's count changes; for a non-pooled event no count is
checked or changed; in the non-aborting cases it returns true. -/
theorem recall_nonempty_spec (s : AOState) (e : Nat) (rest : List Nat)
    (h : s.side.items = e :: rest) :
    ((s.evts e).poolId ≠ 0 → 1 < s.refCtr e + 1 →
      ∃ s2, QActive.recall s = .ok (true, s2) ∧ s2.side.items = rest ∧
        s2.inbox.items = e :: s.inbox.items ∧ s2.refCtr e = s.refCtr e ∧
        ∀ x, x ≠ e → s2.refCtr x = s.refCtr x) ∧
    ((s.evts e).poolId ≠ 0 → s.refCtr e + 1 ≤ 1 →
      QActive.recall s = .error 210) ∧
    ((s.evts e).poolId = 0 →
      ∃ s2, QActive.recall s = .ok (true, s2) ∧ s2.side.items = rest ∧
        s2.inbox.items = e :: s.inbox.items ∧
        ∀ x, s2.refCtr x = s.refCtr x) := by
  refine ⟨?_, ?_, ?_⟩
  · intro hp hr
    simp only [QActive.recall, sideQueueGet, h, QActive.postLIFO, refInc, refDec]
    simp only [hp, if_pos, ne_eq, not_false_iff, if_true, Function.update_same]
    rw [if_pos hr]
    refine ⟨_, rfl, rfl, rfl, ?_, ?_⟩
    · simp [Function.update_same]
    · intro x hx
      simp [Function.update_noteq hx]
  · intro hp hr
    simp only [QActive.recall, sideQueueGet, h, QActive.postLIFO, refInc, refDec]
    simp only [hp, if_pos, ne_eq, not_false_iff, if_true, Function.update_same]
    rw [if_neg (by omega)]
  · intro hp
    simp only [QActive.recall, sideQueueGet, h, QActive.postLIFO, refInc, refDec]
    simp only [hp, ne_eq, not_true, if_false, ite_false]
    exact ⟨_, rfl, rfl, rfl, fun x => rfl⟩

/-- Claim C2 (witness): recall on `wS2`, whose side queue holds the
pooled event 3 with reference count 2. -/
theorem recall_nonempty_spec_witness :
    ∃ s2, QActive.recall wS2 = .ok (true, s2) ∧ s2.side.items = [] ∧
      s2.inbox.items = 3 :: wS2.inbox.items ∧ s2.refCtr 3 = wS2.refCtr 3 ∧
      ∀ x, x ≠ 3 → s2.refCtr x = wS2.refCtr x :=
  (recall_nonempty_spec wS2 3 [] rfl).1 (by decide) (by decide)

/-- Claim C5: `defer` never aborts — it is a total function into
`Bool × AOState`, it succeeds exactly when the side queue has a free
slot, and on failure (overflow) it leaves the whole state unchanged,
so the overflow policy is the caller's. -/
theorem defer_overflow_policy (s : AOState) (e : Nat) :
    ((QActive.defer s e).1 = true ↔ s.side.items.length < s.side.cap) ∧
    ((QActive.defer s e).1 = false → (QActive.defer s e).2 = s) := by
  unfold QActive.defer sideQueuePost
  by_cases h : s.side.items.length < s.side.cap
  · rw [if_pos ⟨h, by omega⟩]
    simp [h]
  · rw [if_neg (fun hc => h hc.1)]
    simp [h]

/-- Claim C6: `recall` on an empty side queue returns false and performs
no other effect: the state is returned unchanged (no queue, inbox or
reference-count mutation) and no assertion is raised. -/
theorem recall_empty_noop (s : AOState) (h : s.side.items = []) :
    QActive.recall s = .ok (false, s) := by
  simp [QActive.recall, sideQueueGet, h]

/-- Claim C6 (witness): recall on the empty state `emptyS`. -/
theorem recall_empty_noop_witness :
    emptyS.side.items = [] ∧ QActive.recall emptyS = .ok (false, emptyS) :=
  ⟨rfl, recall_empty_noop emptyS rfl⟩

end QP

namespace QP

/-! ### Startup-gate invariant lemmas (for claim C3) -/

/-- Consing one action onto a trace preserves the "release before every
dequeue" property, provided the new action, when it is a dequeue, is
already preceded by the release. -/
theorem trace_cons_inv (a : TAct) (tr : List TAct)
    (hne : a = TAct.aoGet → TAct.mainRelease ∈ tr)
    (h3 : ∀ pre post, tr = pre ++ TAct.aoGet :: post →
      TAct.mainRelease ∈ post) :
    ∀ pre post, a :: tr = pre ++ TAct.aoGet :: post →
      TAct.mainRelease ∈ post := by
  intro pre post hsplit
  cases pre with
  | nil =>
    simp only [List.nil_append, List.cons.injEq] at hsplit
    exact hsplit.2 ▸ hne hsplit.1
  | cons b pre2 =>
    simp only [List.cons_append, List.cons.injEq] at hsplit
    exact h3 pre2 post hsplit.2

/-- One scheduling step preserves the startup-gate invariant. -/
theorem gstep_inv {s t : GateSys} {w : Bool} (hI : GateInv s)
    (h : gstep s w = some t) : GateInv t := by
  obtain ⟨h1, h2, h3⟩ := hI
  unfold gstep at h
  split at h
  · -- main thread's turn
    cases hm : s.main with
    | nil => rw [hm] at h; exact absurd h (by simp)
    | cons a rest =>
      rw [hm] at h
      injection h with h
      subst h
      have ha : a ∈ mainProg := h1.subset (hm ▸ List.mem_cons_self a rest)
      have hrest : rest <:+ mainProg := (List.suffix_cons a rest).trans (hm ▸ h1)
      refine ⟨hrest, ?_, ?_⟩
      · by_cases hrel : a = TAct.mainRelease
        · exact Or.inr (by simp [hrel])
        · rcases h2 with ⟨hg, hao⟩ | hmem
          · exact Or.inl ⟨by simp [hrel, hg], hao⟩
          · exact Or.inr (List.mem_cons_of_mem a hmem)
      · refine trace_cons_inv a s.trace ?_ h3
        intro hget
        subst hget
        simp [mainProg] at ha
  · -- active-object thread's turn
    cases hm : s.ao with
    | nil => rw [hm] at h; exact absurd h (by simp)
    | cons a rest =>
      rw [hm] at h
      dsimp only at h
      have haoSuf : s.ao ≠ aoProg → TAct.mainRelease ∈ s.trace := by
        intro hne
        rcases h2 with ⟨_, hao⟩ | hmem
        · exact absurd hao hne
        · exact hmem
      by_cases hacq : a = TAct.aoAcquire
      · rw [if_pos hacq] at h
        by_cases hg : s.gate
        · rw [if_pos hg] at h; exact absurd h (by simp)
        · rw [if_neg hg] at h
          injection h with h
          subst h
          have hmem : TAct.mainRelease ∈ s.trace := by
            rcases h2 with ⟨hgt, _⟩ | hmem
            · exact absurd hgt hg
            · exact hmem
          refine ⟨h1, Or.inr (List.mem_cons_of_mem a hmem), ?_⟩
          refine trace_cons_inv a s.trace ?_ h3
          intro hget
          rw [hget] at hacq
          exact absurd hacq (by decide)
      · rw [if_neg hacq] at h
        have hmem : TAct.mainRelease ∈ s.trace := by
          refine haoSuf ?_
          intro hpe
          rw [hm] at hpe
          have hhd : a = TAct.aoAcquire := by
            have hcopy := hpe
            simp [aoProg] at hcopy
            exact hcopy.1
          exact hacq hhd
        by_cases hrel : a = TAct.aoRelease
        · rw [if_pos hrel] at h
          injection h with h
          subst h
          exact ⟨h1, Or.inr (List.mem_cons_of_mem a hmem),
            trace_cons_inv a s.trace (fun _ => hmem) h3⟩
        · rw [if_neg hrel] at h
          injection h with h
          subst h
          exact ⟨h1, Or.inr (List.mem_cons_of_mem a hmem),
            trace_cons_inv a s.trace (fun _ => hmem) h3⟩

/-- Any run of scheduling choices preserves the startup-gate invariant. -/
theorem gexec_inv (ws : List Bool) (s : GateSys) (hI : GateInv s) :
    GateInv (gexec s ws) := by
  induction ws generalizing s with
  | nil => exact hI
  | cons w ws ih =>
    unfold gexec
    cases hg : gstep s w with
    | none => exact ih s hI
    | some t => exact ih t (gstep_inv hI hg)

/-- The post-`QF::init` state satisfies the startup-gate invariant. -/
theorem gateInv_init : GateInv initSys := by
  refine ⟨List.suffix_refl _, Or.inl ⟨rfl, rfl⟩, ?_⟩
  intro pre post hsplit
  exact absurd hsplit (by simp [initSys])

/-- Claim C3: in every interleaving of `QF::run`'s main thread with an
active-object thread started before it, the thread's first (indeed
every) event dequeue is strictly preceded in time by the main thread's
single release of the startup gate (the trace is newest-first, so the
release lies in the older tail of any dequeue occurrence); `QF::init`
leaves the gate owned, an active-object thread's first action blocks on
the owned gate, and `QF::run`'s program releases it exactly once. -/
theorem startup_gate_blocks_dispatch (ws : List Bool) :
    (∀ pre post, (gexec initSys ws).trace = pre ++ TAct.aoGet :: post →
      TAct.mainRelease ∈ post) ∧
    initSys.gate = true ∧
    gstep initSys false = none ∧
    mainProg.count TAct.mainRelease = 1 := by
  refine ⟨(gexec_inv ws initSys gateInv_init).2.2, rfl, by decide, by decide⟩

/-- Claim C3 (witness): a complete concrete schedule — main runs
`onStartup` and the gate release, then the active-object thread
acquires, releases and dequeues — in which the release indeed precedes
the dequeue. -/
theorem startup_gate_blocks_dispatch_witness :
    (gexec initSys [true, true, false, false, false]).trace =
      [TAct.aoGet, TAct.aoRelease, TAct.aoAcquire,
       TAct.mainRelease, TAct.mainStartup] ∧
    TAct.mainRelease ∈ [TAct.aoRelease, TAct.aoAcquire,
       TAct.mainRelease, TAct.mainStartup] :=
  ⟨by decide,
   (startup_gate_blocks_dispatch [true, true, false, false, false]).1
     [] [TAct.aoRelease, TAct.aoAcquire, TAct.mainRelease, TAct.mainStartup]
     (by decide)⟩

/-- Claim C4: `QActive::stop` only clears the thread handle (the run
loop's running flag) and changes no other field; the run loop consults
the flag only in the `checkFlag` phase reached after a full
get-dispatch-collect cycle, so a dispatch in progress always completes
(the steps after `getEvt` and `dispatchEvt` are flag-independent); the
loop is left only through a `checkFlag` with the flag cleared; and after
exit the thread unsubscribes, deregisters and closes its OS handle, in
that order. -/
theorem stop_completes_dispatch (a : QActiveRec) (flags : Nat → Bool) (n : Nat) :
    (QActive.stop a).thread = none ∧
    (QActive.stop a).prio = a.prio ∧
    (QActive.stop a).osObject = a.osObject ∧
    (QActive.stop a).inbox = a.inbox ∧
    (runTraj flags n = RPhase.getEvt →
      runTraj flags (n + 1) = RPhase.dispatchEvt ∧
      runTraj flags (n + 2) = RPhase.collectEvt ∧
      runTraj flags (n + 3) = RPhase.checkFlag) ∧
    (runTraj flags n = RPhase.dispatchEvt →
      runTraj flags (n + 1) = RPhase.collectEvt ∧
      runTraj flags (n + 2) = RPhase.checkFlag) ∧
    (runTraj flags (n + 1) = RPhase.unsubAll →
      runTraj flags n = RPhase.checkFlag ∧ flags n = false) ∧
    (runTraj flags n = RPhase.checkFlag → flags n = false →
      runTraj flags (n + 1) = RPhase.unsubAll ∧
      runTraj flags (n + 2) = RPhase.removeAO ∧
      runTraj flags (n + 3) = RPhase.closeHandle ∧
      runTraj flags (n + 4) = RPhase.done) := by
  refine ⟨rfl, rfl, rfl, rfl, ?_, ?_, ?_, ?_⟩
  · intro h
    refine ⟨?_, ?_, ?_⟩ <;> simp [runTraj, runStep, h]
  · intro h
    refine ⟨?_, ?_⟩ <;> simp [runTraj, runStep, h]
  · intro h
    rw [runTraj] at h
    cases hph : runTraj flags n <;> rw [hph] at h <;>
      simp [runStep] at h
    cases hf : flags n
    · exact ⟨rfl, rfl⟩
    · rw [hf] at h
      simp at h
  · intro h hf
    refine ⟨?_, ?_, ?_, ?_⟩ <;>
      simp [runTraj, runStep, h, hf]

/-- Claim C4 (witness): with the flag cleared from the start, the first
cycle still runs get, dispatch and collect in full; the first flag check
at step 3 ends the loop and the cleanup sequence follows in order. -/
theorem stop_completes_dispatch_witness :
    runTraj (fun _ => false) 3 = RPhase.checkFlag ∧
    runTraj (fun _ => false) 4 = RPhase.unsubAll ∧
    runTraj (fun _ => false) 5 = RPhase.removeAO ∧
    runTraj (fun _ => false) 6 = RPhase.closeHandle ∧
    runTraj (fun _ => false) 7 = RPhase.done := by
  have h := (stop_completes_dispatch ⟨1, none, 0, ⟨[], 1⟩⟩
    (fun _ => false) 3).2.2.2.2.2.2.2 (by decide) rfl
  exact ⟨by decide, h.1, h.2.1, h.2.2.1, h.2.2.2⟩

/-- Claim C7: `QActive::start` aborts — `Q_REQUIRE_ID(700)` — exactly
when the priority is outside `[1, QF_MAX_ACTIVE]` or stack storage is
supplied (the port's storage invariant), aborts — `Q_ASSERT_ID(730)` —
when thread creation fails, and returns normally in every other case;
there is no partial-start recovery path, an abort yields no result. -/
theorem start_aborts_iff (prio qLen stkSize : Nat) (stkSto : Option Nat)
    (ie : Option Nat) (osObject : Option Int) (threadOk : Bool) :
    (¬(0 < prio ∧ prio ≤ QF_MAX_ACTIVE ∧ stkSto = none) →
      QActive.start prio qLen stkSto stkSize ie osObject threadOk
        = .error 700) ∧
    ((0 < prio ∧ prio ≤ QF_MAX_ACTIVE ∧ stkSto = none) → threadOk = false →
      QActive.start prio qLen stkSto stkSize ie osObject threadOk
        = .error 730) ∧
    ((0 < prio ∧ prio ≤ QF_MAX_ACTIVE ∧ stkSto = none) → threadOk = true →
      ∃ out, QActive.start prio qLen stkSto stkSize ie osObject threadOk
        = .ok out) := by
  unfold QActive.start
  refine ⟨?_, ?_, ?_⟩
  · intro hbad
    rw [if_pos hbad]
  · intro hok hth
    rw [if_neg (not_not_intro hok), hth]
    simp
  · intro hok hth
    rw [if_neg (not_not_intro hok), hth]
    simp

/-- Claim C7 (witness): priority 0 aborts with code 700; a failing
thread creation aborts with code 730; a valid call returns. -/
theorem start_aborts_iff_witness :
    QActive.start 0 4 none 0 none none true = .error 700 ∧
    QActive.start 1 4 none 0 none none false = .error 730 ∧
    (∃ out, QActive.start 1 4 none 0 none none true = .ok out) :=
  ⟨(start_aborts_iff 0 4 0 none none none true).1 (by decide),
   (start_aborts_iff 1 4 0 none none none false).2.1 (by decide) rfl,
   (start_aborts_iff 1 4 0 none none none true).2.2 (by decide) rfl⟩

/-- Claim C8: a valid `QActive::start` performs, in this order: inbox
initialization with the caller's capacity, priority recording,
registration, OS-event creation, the state machine's initial transition
with the initial event, and only then thread creation. -/
theorem start_step_order (prio qLen stkSize : Nat) (ie : Option Nat)
    (osObject : Option Int)
    (h1 : 0 < prio) (h2 : prio ≤ QF_MAX_ACTIVE) :
    ∃ out, QActive.start prio qLen none stkSize ie osObject true = .ok out ∧
      out.trace.take 6 =
        [StartAct.initQueue qLen, StartAct.setPrio prio, StartAct.registerAO,
         StartAct.createOsEvent, StartAct.initialTrans ie,
         StartAct.createThread (if stkSize = 0 then 1024 else stkSize)] := by
  unfold QActive.start
  rw [if_neg (not_not_intro ⟨h1, h2, rfl⟩), if_neg (by simp)]
  refine ⟨_, rfl, ?_⟩
  by_cases hc : (match osObject with | some p => p | none => (0 : Int)) ≠ 0 <;>
    simp [hc]

/-- Claim C8 (witness): the step order of a concrete valid start. -/
theorem start_step_order_witness :
    ∃ out, QActive.start 1 4 none 0 none none true = .ok out ∧
      out.trace.take 6 =
        [StartAct.initQueue 4, StartAct.setPrio 1, StartAct.registerAO,
         StartAct.createOsEvent, StartAct.initialTrans none,
         StartAct.createThread 1024] :=
  start_step_order 1 4 0 none none (by decide) (by decide)

/-- Claim C9: a tick rate of 0 is rejected by `Q_REQUIRE_ID(600)` before
anything is configured (modelled as an abort with no resulting
configuration); a nonzero rate sets the ticker's sleep period to
`1000 / ticksPerSec` milliseconds by integer division and records the
ticker thread's priority hint. -/
theorem setTickRate_spec (t : Nat) (p : Int) :
    (t = 0 → QF_setTickRate t p = .error 600) ∧
    (t ≠ 0 → QF_setTickRate t p = .ok ⟨1000 / t, p⟩) := by
  constructor
  · intro h
    rw [QF_setTickRate, if_pos h]
  · intro h
    rw [QF_setTickRate, if_neg h]

/-- Claim C9 (witness): rate 0 aborts with code 600; rate 4 yields a
250 ms tick period with the priority hint recorded. -/
theorem setTickRate_spec_witness :
    QF_setTickRate 0 50 = .error 600 ∧
    QF_setTickRate 4 50 = .ok ⟨250, 50⟩ :=
  ⟨(setTickRate_spec 0 50).1 rfl,
   (setTickRate_spec 4 50).2 (by decide)⟩

/-- Claim C10: in a valid start, a stack-size argument of 0 makes the
thread be created with the default hint 1024, and any nonzero argument
is passed through to thread creation unchanged. -/
theorem start_stack_default (prio qLen : Nat) (ie : Option Nat)
    (osObject : Option Int)
    (h1 : 0 < prio) (h2 : prio ≤ QF_MAX_ACTIVE) :
    (∃ out, QActive.start prio qLen none 0 ie osObject true = .ok out ∧
      out.stkSizeUsed = 1024 ∧ StartAct.createThread 1024 ∈ out.trace) ∧
    (∀ stkSize, stkSize ≠ 0 →
      ∃ out, QActive.start prio qLen none stkSize ie osObject true = .ok out ∧
        out.stkSizeUsed = stkSize ∧
        StartAct.createThread stkSize ∈ out.trace) := by
  constructor
  · unfold QActive.start
    rw [if_neg (not_not_intro ⟨h1, h2, rfl⟩)]
    simp
  · intro stkSize hs
    unfold QActive.start
    rw [if_neg (not_not_intro ⟨h1, h2, rfl⟩)]
    simp [hs]

/-- Claim C10 (witness): stack size 0 becomes 1024; stack size 2048 is
passed through. -/
theorem start_stack_default_witness :
    (∃ out, QActive.start 1 4 none 0 none none true = .ok out ∧
      out.stkSizeUsed = 1024 ∧ StartAct.createThread 1024 ∈ out.trace) ∧
    (∃ out, QActive.start 1 4 none 2048 none none true = .ok out ∧
      out.stkSizeUsed = 2048 ∧ StartAct.createThread 2048 ∈ out.trace) :=
  ⟨(start_stack_default 1 4 none none (by decide) (by decide)).1,
   (start_stack_default 1 4 none none (by decide) (by decide)).2 2048 (by decide)⟩

end QP
